import Mathlib

/-!
Verification of `pimento.py` (time-lapse capture script).

The Python source is shallowly embedded below: `Session.__init__`'s
argument-parsing loop becomes `parseLoop`/`parseArgs`, the `send_command`
and `record` functions become pure state-transition functions, and the
`time.strftime`/`time.gmtime` display formatting becomes `strftimeHMS`
and friends.  Python exceptions (IndexError from `list.pop` on an empty
list, ValueError from `int()`) are modelled with `Except PyError`.
-/

namespace Pimento

/-- Python runtime errors that the parsing code can raise:
`IndexError` from `args.pop(0)` on an empty list and `ValueError`
from `int()` on a non-numeric string.  Each carries the Python
exception message. -/
inductive PyError where
  | indexError (msg : String)
  | valueError (msg : String)
  deriving Repr, DecidableEq

/-- The error raised by `args.pop(0)` when `args` is empty. -/
def popEmpty : PyError := .indexError "pop from empty list"

/-- Value of a nonempty all-digit character list, read in base 10;
`none` otherwise. -/
def pyDigits (cs : List Char) : Option Nat :=
  if cs ≠ [] ∧ cs.all (fun c => c.isDigit) then
    some (cs.foldl (fun n c => 10 * n + (c.toNat - 48)) 0)
  else
    none

/-- Models Python `int(s)` for the token shapes that occur as flag
values: an optional sign followed by decimal digits.  `none` models the
`ValueError` raised on a non-numeric string. -/
def pyInt (s : String) : Option Int :=
  match s.toList with
  | '-' :: cs => (pyDigits cs).map (fun n => -(n : Int))
  | '+' :: cs => (pyDigits cs).map (fun n => (n : Int))
  | cs => (pyDigits cs).map (fun n => (n : Int))

/-- Models the Python substring test `needle in hay` (line 113:
`"-brd" in args[0]`). -/
def strIn (needle hay : String) : Bool :=
  hay.toList.tails.any (fun t => List.isPrefixOf needle.toList t)

/-- The `Session` object of `pimento.py` (lines 75-122): parsed
configuration plus the mutable `framecount`.  The field defaults are the
ones assigned in `__init__` before the parsing loop (lines 83-92);
`fileprefix` is assigned only after the loop (line 122). -/
structure Session where
  interval : Int := 6
  fps : Int := 24
  directory : String := "."
  name : String := "frame"
  t : Int := 1
  e : String := ".png"
  params : List String := []
  recording : Bool := true
  broadcasting : Bool := false
  framecount : Nat := 0
  fileprefix : String := ""
  deriving Repr, DecidableEq

/-- The state of a fresh `Session` just before the parsing loop
(lines 83-92 of the source). -/
def initialSession : Session := {}

/-- The `while len(args) > 0` parsing loop of `Session.__init__`
(lines 94-119).  Each recognized value-taking flag pops the flag and its
value token; popping a value from an empty list raises IndexError; `-i`,
`-fps` and `-t` pass the value through `int()`, which raises ValueError
on a non-numeric token; any token containing the substring `-brd` sets
`broadcasting` (and exactly `-brdo` additionally clears `recording`);
every other token is appended to `params`. -/
def parseLoop : List String → Session → Except PyError Session
  | [], s => .ok s
  | a :: rest, s =>
    if a = "-dir" then
      match rest with
      | [] => .error popEmpty
      | v :: rest2 => parseLoop rest2 { s with directory := v }
    else if a = "-pr" then
      match rest with
      | [] => .error popEmpty
      | v :: rest2 => parseLoop rest2 { s with name := v }
    else if a = "-i" then
      match rest with
      | [] => .error popEmpty
      | v :: rest2 =>
        match pyInt v with
        | some n => parseLoop rest2 { s with interval := n }
        | none => .error (.valueError ("invalid literal for int() with base 10: " ++ v))
    else if a = "-fps" then
      match rest with
      | [] => .error popEmpty
      | v :: rest2 =>
        match pyInt v with
        | some n => parseLoop rest2 { s with fps := n }
        | none => .error (.valueError ("invalid literal for int() with base 10: " ++ v))
    else if a = "-t" then
      match rest with
      | [] => .error popEmpty
      | v :: rest2 =>
        match pyInt v with
        | some n => parseLoop rest2 { s with t := n }
        | none => .error (.valueError ("invalid literal for int() with base 10: " ++ v))
    else if a = "-e" then
      match rest with
      | [] => .error popEmpty
      | v :: rest2 => parseLoop rest2 { s with e := "." ++ v }
    else if strIn "-brd" a then
      parseLoop rest
        { s with broadcasting := true
                 recording := if a = "-brdo" then false else s.recording }
    else
      parseLoop rest { s with params := s.params ++ [a] }

/-- Lines 121-122 of `__init__`, executed after the loop:
`self.params += ["-t", str(self.t)]` and
`self.fileprefix = self.directory + "/" + self.name`. -/
def finalize (s : Session) : Session :=
  { s with params := s.params ++ ["-t", toString s.t]
           fileprefix := s.directory ++ "/" ++ s.name }

/-- `Session.__init__` applied to the user-supplied argument list
(i.e. `argv[1:]`, after line 82's `args = args[1:]`). -/
def parseArgs (args : List String) : Except PyError Session :=
  (parseLoop args initialSession).map finalize

/-- `Session(argv)` for a full `argv` including the program name
(line 176 together with line 82). -/
def sessionOfArgv (argv : List String) : Except PyError Session :=
  parseArgs argv.tail

/-- Line 176, `record(Session(argv))`: the capture loop `record` is
entered iff `Session.__init__` finished without raising. -/
def recordInvoked (argv : List String) : Bool :=
  (sessionOfArgv argv).isOk

/-- The output file name built in `send_command` (line 128):
`self.fileprefix + str(self.framecount + 1) + self.e`. -/
def filename (s : Session) : String :=
  Session.fileprefix s ++ toString (s.framecount + 1) ++ s.e

/-- The external commands issued by `send_command` (lines 126-136), in
order.  The source calls `subprocess.call` on each and discards the
returned exit status. -/
def send_command (s : Session) : List (List String) :=
  if s.recording then
    let f := filename s
    let capture := ["raspistill", "-o", f] ++ s.params
    if s.broadcasting then
      [capture, ["cp", f, "/var/www/preview.png"]]
    else
      [capture]
  else
    [["raspistill", "-o", "/var/www/preview.png"] ++ s.params]

/-- Effect of one iteration of `record`'s `while True` body
(lines 149-173) on the session state.  `statuses` are the exit statuses
returned by the `call` invocations of `send_command` in that iteration;
the source never inspects the return value of `call`, so the state
transition is independent of them and `framecount += 1` (line 154) runs
unconditionally. -/
def recordIter (s : Session) (_statuses : List Int) : Session :=
  { s with framecount := s.framecount + 1 }

/-- Iterating `record`'s loop body once per element of `statusTrace`
(the exit statuses of the external commands of each successive
iteration). -/
def recordRun (s : Session) : List (List Int) → Session
  | [] => s
  | st :: rest => recordRun (recordIter s st) rest

/-- Python `"%02d" % n` for a nonnegative integer: decimal, zero-padded
to width 2. -/
def pad2 (n : Nat) : String :=
  if n < 10 then "0" ++ toString n else toString n

/-- `time.strftime("%H:%M:%S", time.gmtime(secs))` (lines 166 and 169):
`gmtime` splits the seconds count into calendar fields, so `%H` is the
hour **of the day**, i.e. reduced modulo 24. -/
def strftimeHMS (secs : Nat) : String :=
  pad2 (secs / 3600 % 24) ++ ":" ++ pad2 (secs / 60 % 60) ++ ":" ++ pad2 (secs % 60)

/-- Number of binary digits of `n` (0 for 0), fuelled recursion. -/
def bitlenAux : Nat → Nat → Nat
  | 0, _ => 0
  | fuel + 1, n => if n = 0 then 0 else bitlenAux fuel (n / 2) + 1

/-- Number of binary digits of `n` (0 for 0). -/
def bitlen (n : Nat) : Nat := bitlenAux n n

/-- A nonnegative IEEE-754 binary64 value, as mantissa times power of
two: the value is `m * 2 ^ e`.  All floats arising in lines 167-169 are
nonnegative (`framecount ≥ 0`, `fps ≥ 1` per the spec's data model), so
the sign is not modelled; neither are overflow to infinity and
subnormal underflow, which the magnitudes at hand never reach. -/
structure F64 where
  m : Nat
  e : Int
  deriving Repr, DecidableEq

/-- Round the rational `a / b` to the nearest integer, ties to even. -/
def rne (a b : Nat) : Nat :=
  let q := a / b
  let r := a % b
  if 2 * r > b ∨ (2 * r = b ∧ q % 2 = 1) then q + 1 else q

/-- Round `(num / den) / 2 ^ e` to the nearest integer, ties to even. -/
def roundAt (num den : Nat) (e : Int) : Nat :=
  if 0 ≤ e then rne num (den * 2 ^ e.toNat) else rne (num * 2 ^ (-e).toNat) den

/-- Round the positive rational `num / den` to 53 significant bits,
nearest, ties to even — the binary64 rounding of the exact value. -/
def roundPos (num den : Nat) : F64 :=
  let e0 : Int := (bitlen num : Int) - (bitlen den : Int) - 53
  let t := roundAt num den e0
  let p := if t < 2 ^ 53 then (t, e0) else (roundAt num den (e0 + 1), e0 + 1)
  if p.1 = 2 ^ 53 then ⟨2 ^ 52, p.2 + 1⟩ else ⟨p.1, p.2⟩

/-- Python `float(n)` for a natural number: the binary64 nearest to
`n` (exact whenever `n < 2^53`). -/
def f64OfNat (n : Nat) : F64 :=
  if n = 0 then ⟨0, 0⟩ else roundPos n 1

/-- Python `int(x)` / `"%d" % x` for a nonnegative float: truncation. -/
def f64TruncNat (x : F64) : Nat :=
  if 0 ≤ x.e then x.m * 2 ^ x.e.toNat else x.m / 2 ^ (-x.e).toNat

/-- Correctly rounded binary64 division `a / b` (for `b ≠ 0`). -/
def f64Div (a b : F64) : F64 :=
  if a.m = 0 then ⟨0, 0⟩
  else
    let r := roundPos a.m b.m
    ⟨r.m, r.e + a.e - b.e⟩

/-- Correctly rounded binary64 subtraction `x - n` of a natural number
`n ≤ x` from a nonnegative float (the exact difference is dyadic and is
rounded back to 53 bits). -/
def f64SubNat (x : F64) (n : Nat) : F64 :=
  if 0 ≤ x.e then f64OfNat (x.m * 2 ^ x.e.toNat - n)
  else
    let k := (-x.e).toNat
    let num := x.m - n * 2 ^ k
    if num = 0 then ⟨0, 0⟩ else roundPos num (2 ^ k)

/-- Correctly rounded binary64 multiplication by the exact constant
100. -/
def f64Mul100 (x : F64) : F64 :=
  if x.m = 0 then ⟨0, 0⟩
  else
    let r := roundPos (x.m * 100) 1
    ⟨r.m, r.e + x.e⟩

/-- Line 167: `vidsecs = float(session.framecount)/session.fps`, the
IEEE-754 double-precision quotient.  Modelled for `fps ≥ 1`, which the
spec's data model guarantees (`fps: integer ≥ 1`); `fps = 0` raises
ZeroDivisionError in Python and the nonpositive case is mapped to
zero here. -/
def vidsecs (framecount : Nat) (fps : Int) : F64 :=
  if 0 < fps then f64Div (f64OfNat framecount) (f64OfNat fps.toNat) else ⟨0, 0⟩

/-- Line 168: `vidmsecs = str("%02d" % ((vidsecs - int(vidsecs)) * 100))`,
with the subtraction and multiplication performed in binary64 and `%d`
truncating (not rounding) the resulting float. -/
def vidmsecsStr (framecount : Nat) (fps : Int) : String :=
  let v := vidsecs framecount fps
  pad2 (f64TruncNat (f64Mul100 (f64SubNat v (f64TruncNat v))))

/-- Line 169: `length = time.strftime("%H:%M:%S.", time.gmtime(vidsecs))
+ vidmsecs`; `gmtime` truncates its float argument to whole seconds. -/
def lengthStr (framecount : Nat) (fps : Int) : String :=
  strftimeHMS (f64TruncNat (vidsecs framecount fps)) ++ "." ++ vidmsecsStr framecount fps

/-- The value a recognized value-taking flag stores: a string field or
an `int()`-parsed field. -/
inductive FieldVal where
  | str (v : String)
  | int (v : Int)
  deriving Repr, DecidableEq

/-- The six recognized value-taking flags of lines 95-112. -/
def valueFlags : List String := ["-dir", "-pr", "-i", "-fps", "-t", "-e"]

/-- The value that processing flag `f` with value token `v` assigns to
its field (lines 95-112): `-dir`/`-pr` store the token, `-e` stores the
token with a dot prepended, and `-i`/`-fps`/`-t` store `int(token)`
(`none` models the ValueError on a non-numeric token). -/
def flagValue : String → String → Option FieldVal
  | "-dir", v => some (.str v)
  | "-pr", v => some (.str v)
  | "-i", v => (pyInt v).map FieldVal.int
  | "-fps", v => (pyInt v).map FieldVal.int
  | "-t", v => (pyInt v).map FieldVal.int
  | "-e", v => some (.str ("." ++ v))
  | _, _ => none

/-- The session field written by each recognized value-taking flag. -/
def fieldOf : String → Session → Option FieldVal
  | "-dir", s => some (.str s.directory)
  | "-pr", s => some (.str s.name)
  | "-i", s => some (.int s.interval)
  | "-fps", s => some (.int s.fps)
  | "-t", s => some (.int s.t)
  | "-e", s => some (.str s.e)
  | _, _ => none

/-- The session produced by `Session(["pimento.py", "-i", "5", "-i", "7"])`,
used as a concrete evaluation point. -/
def c3Session : Session :=
  { interval := 7, fps := 24, directory := ".", name := "frame", t := 1, e := ".png",
    params := ["-t", "1"], recording := true, broadcasting := false, framecount := 0,
    fileprefix := "./frame" }

/-- Line 173: the duration passed to `time.sleep`, namely
`session.interval - (time.time() - routinestart)`, where `latency` is
the measured wall-clock time the iteration took so far (the dispatch of
`send_command` plus the display update). -/
def sleepArg (interval : Int) (latency : ℚ) : ℚ :=
  (interval : ℚ) - latency

/-- The session produced by `Session(["pimento.py", "-brdo"])`, used as a
concrete evaluation point. -/
def brdoSession : Session :=
  { interval := 6, fps := 24, directory := ".", name := "frame", t := 1, e := ".png",
    params := ["-t", "1"], recording := false, broadcasting := true, framecount := 0,
    fileprefix := "./frame" }

/-- The session produced by
`Session(["pimento.py", "-w", "1600", "-t", "5"])`, used as a concrete
evaluation point. -/
def c5Session : Session :=
  { interval := 6, fps := 24, directory := ".", name := "frame", t := 5, e := ".png",
    params := ["-w", "1600", "-t", "5"], recording := true, broadcasting := false,
    framecount := 0, fileprefix := "./frame" }

/-!  Helper lemmas. -/

lemma digitChar_isDigit {m : Nat} (h : m < 10) : (Nat.digitChar m).isDigit = true := by
  interval_cases m <;> decide

lemma toDigitsCore_digits (fuel : Nat) :
    ∀ (n : Nat) (acc : List Char), (∀ c ∈ acc, c.isDigit = true) →
      ∀ c ∈ Nat.toDigitsCore 10 fuel n acc, c.isDigit = true := by
  induction fuel with
  | zero => intro n acc hacc c hc; exact hacc c hc
  | succ fuel ih =>
    intro n acc hacc c hc
    rw [Nat.toDigitsCore] at hc
    have hd : ∀ c ∈ (Nat.digitChar (n % 10) :: acc), c.isDigit = true := by
      intro c hc2
      rcases List.mem_cons.mp hc2 with h1 | h2
      · subst h1; exact digitChar_isDigit (Nat.mod_lt _ (by norm_num))
      · exact hacc c h2
    by_cases h0 : n / 10 = 0
    · rw [if_pos h0] at hc
      exact hd c hc
    · rw [if_neg h0] at hc
      exact ih (n / 10) _ hd c hc

lemma natRepr_digit_chars (n : Nat) : ∀ c ∈ (Nat.repr n).data, c.isDigit = true := by
  intro c hc
  have hrw : (Nat.repr n).data = Nat.toDigitsCore 10 (n + 1) n [] := rfl
  rw [hrw] at hc
  exact toDigitsCore_digits (n + 1) n [] (by simp) c hc

/-- `str(i)` for an integer `i` is a sign followed by decimal digits, so
it is never the flag token `-t`. -/
lemma intToString_ne_dash_t (i : Int) : toString i ≠ "-t" := by
  intro h
  cases i with
  | ofNat m =>
    have hd : (Nat.repr m).data = ['-', 't'] := congrArg String.data h
    have hdig : ('-' : Char).isDigit = true := by
      apply natRepr_digit_chars m
      rw [hd]; simp
    simp at hdig
  | negSucc m =>
    have hd : ("-" ++ Nat.repr (m + 1)).data = ['-', 't'] := congrArg String.data h
    rw [String.data_append] at hd
    have hd2 : (Nat.repr (m + 1)).data = ['t'] := by simpa using hd
    have hdig : ('t' : Char).isDigit = true := by
      apply natRepr_digit_chars (m + 1)
      rw [hd2]; simp
    simp at hdig

/-- Invariants maintained by the parsing loop: it only ever appends
non-`-t` tokens to `params`, it never resets `recording` to true, it
never resets `broadcasting` to false, and it preserves the implication
`recording = false → broadcasting = true`. -/
lemma parseLoop_invariant (l : List String) (s cfg : Session)
    (h : parseLoop l s = .ok cfg) :
    (∃ extra, cfg.params = s.params ++ extra ∧ "-t" ∉ extra) ∧
    (s.recording = false → cfg.recording = false) ∧
    (s.broadcasting = true → cfg.broadcasting = true) ∧
    ((s.recording = false → s.broadcasting = true) →
      (cfg.recording = false → cfg.broadcasting = true)) := by
  induction l, s using parseLoop.induct generalizing cfg
  case case17 a rest s hd hp hi hf ht he hb ih =>
    rw [parseLoop.eq_def] at h
    dsimp only at h
    rw [if_neg hd, if_neg hp, if_neg hi, if_neg hf, if_neg ht, if_neg he, if_pos hb] at h
    obtain ⟨⟨extra, hex, hnt⟩, hrec, hbro, himp⟩ := ih cfg h
    refine ⟨⟨extra, hex, hnt⟩, ?_, ?_, ?_⟩
    · intro hr
      apply hrec
      by_cases hbo : a = "-brdo" <;> simp [hbo, hr]
    · intro _
      exact hbro rfl
    · intro _
      exact himp (fun _ => rfl)
  case case18 a rest s hd hp hi hf ht he hb ih =>
    rw [parseLoop.eq_def] at h
    dsimp only at h
    rw [if_neg hd, if_neg hp, if_neg hi, if_neg hf, if_neg ht, if_neg he] at h
    rw [if_neg (by simp [hb])] at h
    obtain ⟨⟨extra, hex, hnt⟩, hrec, hbro, himp⟩ := ih cfg h
    refine ⟨⟨a :: extra, by simpa using hex, ?_⟩, hrec, hbro, himp⟩
    intro hmem
    rcases List.mem_cons.mp hmem with h1 | h2
    · exact ht h1.symm
    · exact hnt h2
  all_goals simp_all [parseLoop]

/-- Destructuring a successful `Except.map finalize`. -/
lemma map_finalize_ok {e : Except PyError Session} {cfg : Session}
    (h : e.map finalize = .ok cfg) :
    ∃ s0, e = .ok s0 ∧ cfg = finalize s0 := by
  cases e with
  | error err => simp [Except.map] at h
  | ok s0 =>
    refine ⟨s0, rfl, ?_⟩
    simpa [Except.map] using h.symm

/-- Fields are only written by their own flag: if a recognized
value-taking flag token does not occur in the remaining token list, the
loop leaves the corresponding field unchanged. -/
lemma parseLoop_fields (l : List String) (s cfg : Session) (h : parseLoop l s = .ok cfg) :
    ("-dir" ∉ l → cfg.directory = s.directory) ∧
    ("-pr" ∉ l → cfg.name = s.name) ∧
    ("-i" ∉ l → cfg.interval = s.interval) ∧
    ("-fps" ∉ l → cfg.fps = s.fps) ∧
    ("-t" ∉ l → cfg.t = s.t) ∧
    ("-e" ∉ l → cfg.e = s.e) := by
  induction l, s using parseLoop.induct generalizing cfg
  case case17 a rest s hd hp hi hf ht he hb ih =>
    rw [parseLoop.eq_def] at h
    dsimp only at h
    rw [if_neg hd, if_neg hp, if_neg hi, if_neg hf, if_neg ht, if_neg he, if_pos hb] at h
    have h6 := ih cfg h
    simp only [List.mem_cons, not_or] at *
    exact ⟨fun hm => h6.1 hm.2, fun hm => h6.2.1 hm.2, fun hm => h6.2.2.1 hm.2,
      fun hm => h6.2.2.2.1 hm.2, fun hm => h6.2.2.2.2.1 hm.2, fun hm => h6.2.2.2.2.2 hm.2⟩
  case case18 a rest s hd hp hi hf ht he hb ih =>
    rw [parseLoop.eq_def] at h
    dsimp only at h
    rw [if_neg hd, if_neg hp, if_neg hi, if_neg hf, if_neg ht, if_neg he] at h
    rw [if_neg (by simp [hb])] at h
    have h6 := ih cfg h
    simp only [List.mem_cons, not_or] at *
    exact ⟨fun hm => h6.1 hm.2, fun hm => h6.2.1 hm.2, fun hm => h6.2.2.1 hm.2,
      fun hm => h6.2.2.2.1 hm.2, fun hm => h6.2.2.2.2.1 hm.2, fun hm => h6.2.2.2.2.2 hm.2⟩
  all_goals simp_all [parseLoop]

/-!  Claim theorems. -/

/-- Claim C1, counterexample: with `intervalSeconds = 6` and a dispatch
latency of 9 s, line 173 passes `-3` to `time.sleep`, not
`max(0, 6 - 9) = 0`: the code does not clamp the sleep duration. -/
theorem C1_counterexample :
    sleepArg 6 9 = -3 ∧ sleepArg 6 9 ≠ max 0 ((6 : ℚ) - 9) := by
  constructor <;> norm_num [sleepArg]

/-- Claim C1, amended: the duration passed to the sleep step is the
unclamped `intervalSeconds - (now - t0)`; it agrees with
`max(0, intervalSeconds - (now - t0))` and lies in `[0, intervalSeconds]`
exactly on iterations whose measured latency is between `0` and
`intervalSeconds`. -/
theorem C1_sleep_clamped_iff_latency_le (interval : Int) (latency : ℚ)
    (h0 : 0 ≤ latency) (h1 : latency ≤ (interval : ℚ)) :
    sleepArg interval latency = max 0 ((interval : ℚ) - latency) ∧
    0 ≤ sleepArg interval latency ∧
    sleepArg interval latency ≤ (interval : ℚ) := by
  unfold sleepArg
  refine ⟨?_, by linarith, by linarith⟩
  rw [max_eq_right (by linarith)]

/-- Claim C1, witness: at `intervalSeconds = 6` and latency 3 s the
amended statement is realized (the sleep duration is 3 s). -/
theorem C1_witness :
    sleepArg 6 3 = max 0 ((6 : ℚ) - 3) ∧
    0 ≤ sleepArg 6 3 ∧ sleepArg 6 3 ≤ ((6 : Int) : ℚ) :=
  C1_sleep_clamped_iff_latency_le 6 3 (by norm_num) (by norm_num)

/-- Claim C2: the source discards the exit status returned by `call`
(lines 130 and 152-154), so after a dispatch that reports failure
(status 1) at iteration 1, `framecount` nevertheless becomes 1, and a
second iteration still runs, reaching `framecount = 2` — the scheduler
does not abort before incrementing as the claim requires. -/
theorem C2_framecount_increments_despite_failure_status :
    (recordIter initialSession [1]).framecount = 1 ∧
    (recordRun initialSession [[1], [1]]).framecount = 2 := ⟨rfl, rfl⟩

/-- Claim C3, counterexample: for `["-i", "5", "-i", "7"]` the parsed
interval is 7, the value of the *last* `-i` occurrence, not the first. -/
theorem C3_counterexample :
    (parseArgs ["-i", "5", "-i", "7"]).map Session.interval = .ok 7 ∧ (7 : Int) ≠ 5 :=
  ⟨rfl, by decide⟩

/-- Claim C3, amended: when the same recognized value-taking flag is
processed as a flag more than once (each occurrence with a valid value),
the *last* processed occurrence wins.  Stated in full generality: for
every one of the six value-taking flags, whenever the parsing loop
reaches an occurrence of that flag with a valid value token — from an
arbitrary prior state, hence after any earlier occurrences with any
valid values, at any position — and the flag token does not occur among
the remaining tokens (so this occurrence is the latest), the
corresponding field of the parsed configuration holds exactly this
occurrence's value. -/
theorem C3_last_processed_occurrence_wins (f : String) (hf : f ∈ valueFlags)
    (v : String) (val : FieldVal) (hv : flagValue f v = some val)
    (rest : List String) (hlast : f ∉ rest) (s cfg : Session)
    (h : (parseLoop (f :: v :: rest) s).map finalize = .ok cfg) :
    fieldOf f cfg = some val := by
  fin_cases hf
  · rw [parseLoop.eq_def] at h
    dsimp only at h
    rw [if_pos rfl] at h
    obtain ⟨s0, hs0, hcfg⟩ := map_finalize_ok h
    have hpres := (parseLoop_fields rest _ s0 hs0).1 hlast
    subst hcfg
    simp only [flagValue, Option.some.injEq] at hv
    simp [fieldOf, finalize, hpres, ← hv]
  · rw [parseLoop.eq_def] at h
    dsimp only at h
    rw [if_neg (by decide), if_pos rfl] at h
    obtain ⟨s0, hs0, hcfg⟩ := map_finalize_ok h
    have hpres := (parseLoop_fields rest _ s0 hs0).2.1 hlast
    subst hcfg
    simp only [flagValue, Option.some.injEq] at hv
    simp [fieldOf, finalize, hpres, ← hv]
  · rw [parseLoop.eq_def] at h
    dsimp only at h
    rw [if_neg (by decide), if_neg (by decide), if_pos rfl] at h
    simp only [flagValue] at hv
    cases hn : pyInt v with
    | none => rw [hn] at hv; simp at hv
    | some n =>
      rw [hn] at hv h
      dsimp only at h
      obtain ⟨s0, hs0, hcfg⟩ := map_finalize_ok h
      have hpres := (parseLoop_fields rest _ s0 hs0).2.2.1 hlast
      subst hcfg
      simp at hv
      subst hv
      simp [fieldOf, finalize, hpres]
  · rw [parseLoop.eq_def] at h
    dsimp only at h
    rw [if_neg (by decide), if_neg (by decide), if_neg (by decide), if_pos rfl] at h
    simp only [flagValue] at hv
    cases hn : pyInt v with
    | none => rw [hn] at hv; simp at hv
    | some n =>
      rw [hn] at hv h
      dsimp only at h
      obtain ⟨s0, hs0, hcfg⟩ := map_finalize_ok h
      have hpres := (parseLoop_fields rest _ s0 hs0).2.2.2.1 hlast
      subst hcfg
      simp at hv
      subst hv
      simp [fieldOf, finalize, hpres]
  · rw [parseLoop.eq_def] at h
    dsimp only at h
    rw [if_neg (by decide), if_neg (by decide), if_neg (by decide), if_neg (by decide),
      if_pos rfl] at h
    simp only [flagValue] at hv
    cases hn : pyInt v with
    | none => rw [hn] at hv; simp at hv
    | some n =>
      rw [hn] at hv h
      dsimp only at h
      obtain ⟨s0, hs0, hcfg⟩ := map_finalize_ok h
      have hpres := (parseLoop_fields rest _ s0 hs0).2.2.2.2.1 hlast
      subst hcfg
      simp at hv
      subst hv
      simp [fieldOf, finalize, hpres]
  · rw [parseLoop.eq_def] at h
    dsimp only at h
    rw [if_neg (by decide), if_neg (by decide), if_neg (by decide), if_neg (by decide),
      if_neg (by decide), if_pos rfl] at h
    obtain ⟨s0, hs0, hcfg⟩ := map_finalize_ok h
    have hpres := (parseLoop_fields rest _ s0 hs0).2.2.2.2.2 hlast
    subst hcfg
    simp only [flagValue, Option.some.injEq] at hv
    simp [fieldOf, finalize, hpres, ← hv]

/-- Claim C3, witness: the amended statement realized for `-i` at the
argument list `["-i", "5", "-i", "7"]` — the prior state is the state
after processing the first occurrence `-i 5`, the reached occurrence is
`-i 7`, and the parsed interval is 7. -/
theorem C3_witness : fieldOf "-i" c3Session = some (.int 7) :=
  C3_last_processed_occurrence_wins "-i" (by simp [valueFlags]) "7" (.int 7) rfl []
    (by simp) { initialSession with interval := 5 } c3Session rfl

/-- Claim C4, counterexample: the argument list `["-pr", "-brdo"]`
contains the exact token `-brdo`, yet parses with `recording = true` and
`broadcasting = false`, because `-brdo` is consumed as the value of
`-pr` and never examined as a flag. -/
theorem C4_counterexample :
    "-brdo" ∈ (["-pr", "-brdo"] : List String) ∧
    (parseArgs ["-pr", "-brdo"]).map (fun c => (c.recording, c.broadcasting)) =
      .ok (true, false) := ⟨by simp, rfl⟩

/-- Claim C4, amended: whenever `-brdo` is *processed as a flag*
(reached as the current token of the parsing loop, from any prior state,
rather than consumed as the value of a preceding value-taking flag), the
final configuration has `recording = false` and `broadcasting = true`,
regardless of everything before or after it. -/
theorem C4_brdo_processed_as_flag (rest : List String) (s cfg : Session)
    (h : (parseLoop ("-brdo" :: rest) s).map finalize = .ok cfg) :
    cfg.recording = false ∧ cfg.broadcasting = true := by
  rw [parseLoop.eq_def] at h
  dsimp only at h
  rw [if_neg (by decide), if_neg (by decide), if_neg (by decide), if_neg (by decide),
    if_neg (by decide), if_neg (by decide), if_pos (by decide)] at h
  obtain ⟨s0, hs0, hcfg⟩ := map_finalize_ok h
  obtain ⟨-, hrec, hbro, -⟩ := parseLoop_invariant _ _ _ hs0
  subst hcfg
  exact ⟨hrec (by simp), hbro (by simp)⟩

/-- Claim C4, witness: the amended statement realized on the argument
list `["-brdo"]`. -/
theorem C4_witness :
    Session.recording brdoSession = false ∧ Session.broadcasting brdoSession = true :=
  C4_brdo_processed_as_flag [] initialSession brdoSession rfl

/-- Claim C5: in every successfully parsed configuration the delay flag
`-t` occurs exactly once in `params`, and the last two elements of
`params` are exactly `-t` followed by the stringified delay value; a
user-supplied `-t`/value pair is consumed into the `t` field and never
passed through. -/
theorem C5_delay_flag_last_and_unique (args : List String) (cfg : Session)
    (h : parseArgs args = .ok cfg) :
    cfg.params.count "-t" = 1 ∧
    2 ≤ cfg.params.length ∧
    cfg.params.drop (cfg.params.length - 2) = ["-t", toString cfg.t] := by
  obtain ⟨s0, hs0, hcfg⟩ := map_finalize_ok h
  obtain ⟨⟨extra, hex, hnt⟩, -⟩ := parseLoop_invariant args initialSession s0 hs0
  have hex2 : s0.params = extra := by simpa [initialSession] using hex
  subst hcfg
  have hps : (finalize s0).params = extra ++ ["-t", toString s0.t] := by
    simp [finalize, hex2]
  have htt : (finalize s0).t = s0.t := rfl
  refine ⟨?_, ?_, ?_⟩
  · rw [hps, List.count_append]
    have h0 : extra.count "-t" = 0 := List.count_eq_zero.mpr hnt
    have h1 : (["-t", toString s0.t] : List String).count "-t" = 1 := by
      simp [List.count_cons, intToString_ne_dash_t s0.t]
    rw [h0, h1]
  · rw [hps]
    simp
  · rw [htt, hps]
    have hlen : (extra ++ ["-t", toString s0.t]).length = extra.length + 2 := by simp
    rw [hlen]
    have hsub : extra.length + 2 - 2 = extra.length := by omega
    rw [hsub]
    exact List.drop_left extra _

/-- Claim C5, witness: realized on `["-w", "1600", "-t", "5"]`, where
the user supplied a custom `-t 5`: the parsed `params` is
`["-w", "1600", "-t", "5"]`, ending in the single `-t` pair. -/
theorem C5_witness :
    (Session.params c5Session).count "-t" = 1 ∧
    2 ≤ (Session.params c5Session).length ∧
    (Session.params c5Session).drop ((Session.params c5Session).length - 2) =
      ["-t", toString (Session.t c5Session)] :=
  C5_delay_flag_last_and_unique ["-w", "1600", "-t", "5"] c5Session rfl

/-- Claim C6, counterexample: on `["-i"]` (a value-taking flag as last
token) parsing fails with the IndexError `pop from empty list`, whose
message does not contain — hence does not name — the offending flag
`-i`. -/
theorem C6_counterexample :
    parseArgs ["-i"] = .error (.indexError "pop from empty list") ∧
    strIn "-i" "pop from empty list" = false := ⟨rfl, rfl⟩

/-- Claim C6, amended: if a recognized value-taking flag is reached as
the current token with no value left, parsing raises the uncaught
IndexError `pop from empty list` (the same error for every flag, naming
none of them), and the capture loop `record` is never entered. -/
theorem C6_missing_value_aborts_without_naming_flag (f : String) (s : Session)
    (hf : f ∈ (["-dir", "-pr", "-i", "-fps", "-t", "-e"] : List String)) :
    parseLoop [f] s = .error popEmpty ∧
    strIn f "pop from empty list" = false ∧
    recordInvoked ["pimento.py", f] = false := by
  fin_cases hf <;> exact ⟨rfl, rfl, rfl⟩

/-- Claim C6, witness: the amended statement realized for the flag
`-i`. -/
theorem C6_witness :
    parseLoop ["-i"] initialSession = .error popEmpty ∧
    strIn "-i" "pop from empty list" = false ∧
    recordInvoked ["pimento.py", "-i"] = false :=
  C6_missing_value_aborts_without_naming_flag "-i" initialSession (by simp)

/-- Claim C7, counterexample: at 90000 elapsed seconds (25 h) the
display of line 166 reads `01:00:00`, although the full elapsed hour
count is 25 — the hours field is reduced modulo 24. -/
theorem C7_counterexample :
    strftimeHMS 90000 = "01:00:00" ∧ (90000 : Nat) / 3600 = 25 := ⟨rfl, rfl⟩

/-- Claim C7, amended: the elapsed-time display is zero-padded
hours:minutes:seconds whose hours field is the elapsed hour count
modulo 24 — the display silently rolls over every 24 hours
(86400 s). -/
theorem C7_elapsed_display_wraps_every_24h (secs : Nat) :
    strftimeHMS (secs + 86400) = strftimeHMS secs := by
  unfold strftimeHMS
  have h1 : (secs + 86400) / 3600 % 24 = secs / 3600 % 24 := by
    have h : (secs + 86400) / 3600 = secs / 3600 + 24 := by omega
    rw [h, Nat.add_mod_right]
  have h2 : (secs + 86400) / 60 % 60 = secs / 60 % 60 := by
    have h : (secs + 86400) / 60 = secs / 60 + 1440 := by omega
    rw [h]
    omega
  have h3 : (secs + 86400) % 60 = secs % 60 := by omega
  rw [h1, h2, h3]

/-- Claim C8, counterexample: at `frameCount = 29, fps = 100` the code
computes in binary64: `float(29)/100` is the double just below 0.29,
`(vidsecs - 0) * 100` is 28.999999999999996, and `%02d` truncates it to
`28` — while truncating the *exact* fractional part times 100, as the
claim prescribes, gives 29.  The claim's formula is therefore false of
the code. -/
theorem C8_counterexample :
    vidmsecsStr 29 100 = "28" ∧
    pad2 (29 * 100 / 100 % 100) = "29" ∧
    ("28" : String) ≠ "29" := ⟨rfl, rfl, by decide⟩

/-- Claim C8, amended: the two-digit fractional component is obtained by
truncating (not rounding) the double-precision product
`(vidsecs - int(vidsecs)) * 100` computed in IEEE-754 binary64
arithmetic, which can be one less than the exact truncated value
(frameCount 29 at fps 100 yields `28`, and 57 at 100 yields `56`,
although the exact fractional parts are .29 and .57); truncation rather
than rounding is still visible on float-clean values (frameCount 2 at
fps 3 yields `66`, where rounding would give 67); and in particular,
with `fps = 24`, after 24 successful iterations `frameCount = 24`, the
quotient 1.0 is float-exact and the projected length string is exactly
`00:00:01.00`. -/
theorem C8_projected_length_float_truncated :
    lengthStr 24 24 = "00:00:01.00" ∧
    vidmsecsStr 24 24 = "00" ∧
    vidmsecsStr 2 3 = "66" ∧
    vidmsecsStr 29 100 = "28" ∧
    vidmsecsStr 57 100 = "56" ∧
    lengthStr 123 24 = "00:00:05.12" := ⟨rfl, rfl, rfl, rfl, rfl, rfl⟩

/-- Claim C9: parsing `-dir /x -pr shot -i 10 -fps 30 -e jpg` yields
`fileprefix = "/x/shot"` (directory, path separator, name), and the
output path built for frame 3 (i.e. `framecount = 2`) is exactly
`/x/shot3.jpg`. -/
theorem C9_roundtrip_filepath :
    ∃ cfg, parseArgs ["-dir", "/x", "-pr", "shot", "-i", "10", "-fps", "30", "-e", "jpg"] =
        .ok cfg ∧
      Session.fileprefix cfg = "/x/shot" ∧
      filename { cfg with framecount := 2 } = "/x/shot3.jpg" :=
  ⟨_, rfl, rfl, rfl⟩

/-- Claim C10: a successfully parsed configuration never has
`recording = false` and `broadcasting = false` at once — the only
branch that clears `recording` (exact token `-brdo`) also sets
`broadcasting`, and no branch ever resets either. -/
theorem C10_recording_false_implies_broadcasting (args : List String) (cfg : Session)
    (h : parseArgs args = .ok cfg) (hr : cfg.recording = false) :
    cfg.broadcasting = true := by
  obtain ⟨s0, hs0, hcfg⟩ := map_finalize_ok h
  obtain ⟨-, -, -, himp⟩ := parseLoop_invariant args initialSession s0 hs0
  subst hcfg
  exact himp (by simp [initialSession]) hr

/-- Claim C10, witness: realized on `["-brdo"]`, which parses with
`recording = false` and, as the theorem requires,
`broadcasting = true`. -/
theorem C10_witness : Session.broadcasting brdoSession = true :=
  C10_recording_false_implies_broadcasting ["-brdo"] brdoSession rfl rfl

end Pimento
